import Mathlib

/-
Verification of the pokemon-filter repository (src/pokefilter.py) against its
natural-language specification.  The Python source is shallowly embedded below:
Python sets of strings are Finset String, Python tuples of two values are
lists or pairs, nullable JSON integer fields are Option Int, dynamic values
appearing as construction arguments are PyVal, the dict built by get_pokemon
is an insertion-ordered association list, and fallible code (KeyError from
nested dictionary access) returns Except.
-/

set_option autoImplicit false

namespace Pokefilter

/-- Python runtime values, as they appear inside the set and tuple arguments of
Filter.\_\_init\_\_: the embedding only needs integers and strings. -/
inductive PyVal where
  | int : Int → PyVal
  | str : String → PyVal
deriving DecidableEq

/-- In Python, assert applied to a generator expression tests the truthiness of
the generator object itself, which is always true whatever the elements (no
element is ever inspected).  The three per-element isinstance asserts of
Filter.\_\_init\_\_ (src/pokefilter.py lines 32-34) are exactly of this form,
so they can never fail; this definition embeds them. -/
def generatorTruthy (_ : List PyVal) : Bool := true

/-- The assert checks of Filter.\_\_init\_\_ (src/pokefilter.py lines 24-34),
for arguments already presented as the element list of a set and the element
lists of two tuples, so that the isinstance(set)/isinstance(tuple) asserts of
lines 24-26 hold by the types of this embedding.  Returns true iff construction
succeeds, i.e. no assert raises AssertionError.  Note that the source checks
only non-emptiness of the type set and the arity of the two ranges: the
element-type asserts of lines 32-34 are assert-on-a-generator (see
generatorTruthy) and there is no check that a range is ordered. -/
def initAsserts (types height_range xp_range : List PyVal) : Bool :=
  decide (0 < types.length) &&
  decide (height_range.length = 2) &&
  decide (xp_range.length = 2) &&
  generatorTruthy types &&
  generatorTruthy height_range &&
  generatorTruthy xp_range

/-- The Filter object after a successful, well-typed construction
(src/pokefilter.py lines 36-38): a set of type names and two integer ranges,
stored as given, immutable afterwards. -/
structure Filter where
  types : Finset String
  height_range : Int × Int
  xp_range : Int × Int

/-- Filter.height_in_range (src/pokefilter.py lines 40-47): false on a missing
height, otherwise an inclusive two-sided bounds check against height_range. -/
def Filter.height_in_range (f : Filter) (height : Option Int) : Bool :=
  match height with
  | none => false
  | some h => decide (f.height_range.1 ≤ h) && decide (h ≤ f.height_range.2)

/-- Filter.xp_in_range (src/pokefilter.py lines 49-56): false on a missing xp,
otherwise an inclusive two-sided bounds check against xp_range. -/
def Filter.xp_in_range (f : Filter) (xp : Option Int) : Bool :=
  match xp with
  | none => false
  | some x => decide (f.xp_range.1 ≤ x) && decide (x ≤ f.xp_range.2)

/-- Filter.type_matches (src/pokefilter.py lines 58-70): a loop over the given
set returning True as soon as an element is found in f.types, False if the loop
finishes.  Iteration order over a Python set is unspecified and the result does
not depend on it, so the loop is embedded as decidable existence. -/
def Filter.type_matches (f : Filter) (types : Finset String) : Bool :=
  decide (∃ t ∈ types, t ∈ f.types)

/-- Filter.matching_types (src/pokefilter.py lines 72-77):
self.types.intersection(types). -/
def Filter.matching_types (f : Filter) (types : Finset String) : Finset String :=
  f.types ∩ types

/-- The nested object under the "type" key of one element of the "types" array
of a pokemon data blob.  Its "name" key may be absent (none). -/
structure TypeRef where
  name : Option String
deriving DecidableEq

/-- One element of the "types" array of a pokemon data blob.  Its "type" key
may be absent (none). -/
structure TypeEntry where
  type : Option TypeRef
deriving DecidableEq

/-- One item stub from the paged listing: a name and a detail URL
(elements of the "results" arrays returned by query_paged). -/
structure Stub where
  name : String
  url : String

/-- A pokemon detail data blob, with the fields get_pokemon reads: "name",
"base_experience" and "height" (both nullable), and the "types" array. -/
structure PokeDetail where
  name : String
  base_experience : Option Int
  height : Option Int
  types : List TypeEntry
deriving DecidableEq

/-- Evaluation of the expression t["type"]["name"] for one element t of the
"types" array (src/pokefilter.py line 182): raises KeyError when either level
of the expected nested structure is absent. -/
def extractName (t : TypeEntry) : Except String String :=
  match t.type with
  | none => Except.error "KeyError: type"
  | some r =>
    match r.name with
    | none => Except.error "KeyError: name"
    | some n => Except.ok n

/-- Left-to-right evaluation of the generator inside set(...) in get_types:
the first KeyError raised propagates, aborting the whole construction. -/
def extractNames : List TypeEntry → Except String (List String)
  | [] => Except.ok []
  | t :: rest =>
    match extractName t with
    | Except.error e => Except.error e
    | Except.ok n =>
      match extractNames rest with
      | Except.error e => Except.error e
      | Except.ok ns => Except.ok (n :: ns)

/-- get_types (src/pokefilter.py lines 175-182): collects the set of the
nested type names of the blob, set(t["type"]["name"] for t in pokemon["types"]);
duplicates are collapsed by the set constructor, and a KeyError from a missing
nested field propagates to the caller. -/
def get_types (p : PokeDetail) : Except String (Finset String) :=
  match extractNames p.types with
  | Except.error e => Except.error e
  | Except.ok ns => Except.ok ns.toFinset

/-- The filter condition of src/pokefilter.py lines 201-203, with Python
short-circuit evaluation of the and-chain: get_types (which may raise) is only
evaluated after both range checks have passed. -/
def passesE (f : Filter) (p : PokeDetail) : Except String Bool :=
  if f.xp_in_range p.base_experience then
    if f.height_in_range p.height then
      match get_types p with
      | Except.error e => Except.error e
      | Except.ok tys => Except.ok (f.type_matches tys)
    else Except.ok false
  else Except.ok false

/-- The first loop of get_pokemon (src/pokefilter.py lines 196-204): walk the
fetched details in listing order, appending each passing one to
passing_pokemons; a KeyError raised by the condition aborts the loop. -/
def collectPassingAux (f : Filter) (acc : List PokeDetail) :
    List PokeDetail → Except String (List PokeDetail)
  | [] => Except.ok acc
  | p :: rest =>
    match passesE f p with
    | Except.error e => Except.error e
    | Except.ok b => collectPassingAux f (if b then acc ++ [p] else acc) rest

/-- The passing_pokemons list built by get_pokemon, starting from []. -/
def collectPassing (f : Filter) (ds : List PokeDetail) :
    Except String (List PokeDetail) :=
  collectPassingAux f [] ds

/-- The aggregation map built by get_pokemon: a Python dict keyed by type name
whose values are lists of pokemon names, embedded as an insertion-ordered
association list (Python dicts preserve insertion order and have unique
keys). -/
abbrev AggMap := List (String × List String)

/-- The body of the inner aggregation loop (src/pokefilter.py lines 211-214):
if t not in results, bind results[t] to [], then append the name to
results[t].  Equivalently, append the name to the entry of the first matching
key, or add a new (t, [name]) entry at the end. -/
def dictAppend : AggMap → String → String → AggMap
  | [], t, nm => [(t, [nm])]
  | kv :: rest, t, nm =>
    if kv.1 = t then (kv.1, kv.2 ++ [nm]) :: rest
    else kv :: dictAppend rest t nm

/-- Reading results[t] from the aggregation map, with [] for an absent key. -/
def lookupList (results : AggMap) (t : String) : List String :=
  match results.find? (fun kv => decide (kv.1 = t)) with
  | none => []
  | some kv => kv.2

/-- The list of type names the filter matches on one blob, each exactly once:
the elements of matching_types(get_types(p)) in first-seen blob order.
Iteration order over a Python set is unspecified; the embedding fixes the
first-seen order of the blob as its canonical iteration order. -/
def matchedList (f : Filter) (ns : List String) : List String :=
  ns.dedup.filter (fun t => decide (t ∈ f.types))

/-- One iteration of the outer aggregation loop of get_pokemon
(src/pokefilter.py lines 209-214): recompute the matching types of the passing
pokemon and append its name under every one of them. -/
def processOne (f : Filter) (results : AggMap) (p : PokeDetail) :
    Except String AggMap :=
  match extractNames p.types with
  | Except.error e => Except.error e
  | Except.ok ns =>
    Except.ok ((matchedList f ns).foldl
      (fun r t => dictAppend r t p.name) results)

/-- The aggregation loop of get_pokemon (src/pokefilter.py lines 208-214),
starting from the empty dict. -/
def aggregateAux (f : Filter) (results : AggMap) :
    List PokeDetail → Except String AggMap
  | [] => Except.ok results
  | p :: rest =>
    match processOne f results p with
    | Except.error e => Except.error e
    | Except.ok r => aggregateAux f r rest

/-- The value of the local variable results of get_pokemon at the pprint call
(src/pokefilter.py line 216), given the stub listing produced by query_paged
and a fetch function standing for query: fetch each detail in listing order,
keep the passing ones, then aggregate.  An uncaught KeyError anywhere in the
body is an error result. -/
def get_pokemon_results (f : Filter) (stubs : List Stub)
    (fetchOne : String → PokeDetail) : Except String AggMap :=
  match collectPassing f (stubs.map (fun s => fetchOne s.url)) with
  | Except.error e => Except.error e
  | Except.ok passing => aggregateAux f [] passing

/-- get_pokemon (src/pokefilter.py lines 184-216): the function body builds
results, pprints it, and then falls off the end of the function without a
return statement, so on normal completion Python returns None (here: none),
despite the declared return annotation dict and the docstring saying the dict
is returned. -/
def get_pokemon (f : Filter) (stubs : List Stub)
    (fetchOne : String → PokeDetail) : Except String (Option AggMap) :=
  match get_pokemon_results f stubs fetchOne with
  | Except.error e => Except.error e
  | Except.ok _results => Except.ok none

/-- The set of types of a detail blob whose get_types succeeds (junk value on
the error case; only used under a well-formedness hypothesis). -/
def typesOf (p : PokeDetail) : Finset String :=
  match get_types p with
  | Except.ok tys => tys
  | Except.error _ => ∅

/-- The declarative form of the filter condition of src/pokefilter.py
lines 201-203: the conjunction of the three predicates. -/
def passes (f : Filter) (p : PokeDetail) : Bool :=
  f.xp_in_range p.base_experience &&
  f.height_in_range p.height &&
  f.type_matches (typesOf p)

instance {e a : Type} [DecidableEq e] [DecidableEq a] : DecidableEq (Except e a) :=
  fun x y =>
  match x, y with
  | Except.ok u, Except.ok v =>
    if h : u = v then isTrue (by rw [h]) else isFalse (by simp [h])
  | Except.error u, Except.error v =>
    if h : u = v then isTrue (by rw [h]) else isFalse (by simp [h])
  | Except.ok _, Except.error _ => isFalse (by simp)
  | Except.error _, Except.ok _ => isFalse (by simp)

/-- The filter constructed by the top-level call of src/pokefilter.py
line 218. -/
def fEx : Filter :=
  { types := {"grass", "poison", "electric"}
    height_range := (1, 100)
    xp_range := (20, 200) }

/-- A well-formed detail blob that passes fEx and matches two of its
categories. -/
def dEx : PokeDetail :=
  { name := "bulbasaur"
    base_experience := some 100
    height := some 50
    types := [{ type := some { name := some "grass" } },
              { type := some { name := some "poison" } }] }

/-- A well-formed detail blob that fails fEx (no category overlap). -/
def dNo : PokeDetail :=
  { name := "charmander"
    base_experience := some 62
    height := some 6
    types := [{ type := some { name := some "fire" } }] }

/-- A malformed detail blob: both ranges pass, but the first element of its
types array lacks the nested "type" key, so get_types raises. -/
def dBad : PokeDetail :=
  { name := "missingno"
    base_experience := some 100
    height := some 50
    types := [{ type := none }] }

/-- A stub whose URL the example fetch function resolves to dEx. -/
def stubEx : Stub := { name := "bulbasaur", url := "u1" }

/-- An example fetch function standing for query: every URL resolves to
dEx. -/
def fetchEx : String → PokeDetail := fun _ => dEx

/-- A filter with both ranges inverted (low above high): the source
constructor never compares the two bounds, so nothing rejects it. -/
def fInv : Filter :=
  { types := {"grass"}
    height_range := (5, 2)
    xp_range := (9, 4) }

theorem lookupList_nil (t : String) : lookupList [] t = [] := rfl

theorem lookupList_cons (kv : String × List String) (rest : AggMap) (t : String) :
    lookupList (kv :: rest) t = if kv.1 = t then kv.2 else lookupList rest t := by
  by_cases h : kv.1 = t <;> simp [lookupList, List.find?_cons, h]

theorem lookupList_dictAppend_same (r : AggMap) (t nm : String) :
    lookupList (dictAppend r t nm) t = lookupList r t ++ [nm] := by
  induction r with
  | nil => simp [dictAppend, lookupList_cons, lookupList_nil]
  | cons kv rest ih =>
    by_cases h : kv.1 = t
    · simp [dictAppend, h, lookupList_cons]
    · simp [dictAppend, h, lookupList_cons, ih]

theorem lookupList_dictAppend_other (r : AggMap) (t s nm : String) (h : s ≠ t) :
    lookupList (dictAppend r t nm) s = lookupList r s := by
  induction r with
  | nil => simp [dictAppend, lookupList_cons, lookupList_nil, Ne.symm h]
  | cons kv rest ih =>
    by_cases hk : kv.1 = t
    · subst hk
      simp [dictAppend, lookupList_cons, Ne.symm h]
    · simp [dictAppend, hk, lookupList_cons, ih]

theorem lookupList_foldl_dictAppend (nm t : String) :
    ∀ (L : List String), L.Nodup → ∀ (r : AggMap),
      lookupList (L.foldl (fun acc c => dictAppend acc c nm) r) t =
        lookupList r t ++ (if t ∈ L then [nm] else [])
  | [], _, r => by simp
  | c :: cs, hL, r => by
    obtain ⟨hc, hcs⟩ := List.nodup_cons.mp hL
    simp only [List.foldl_cons]
    rw [lookupList_foldl_dictAppend nm t cs hcs (dictAppend r c nm)]
    by_cases ht : t = c
    · subst ht
      rw [lookupList_dictAppend_same]
      simp [hc]
    · rw [lookupList_dictAppend_other _ _ _ _ ht]
      simp [List.mem_cons, ht]

theorem matchedList_nodup (f : Filter) (ns : List String) :
    (matchedList f ns).Nodup :=
  (List.nodup_dedup ns).filter _

theorem mem_matchedList (f : Filter) (ns : List String) (t : String) :
    t ∈ matchedList f ns ↔ t ∈ f.matching_types ns.toFinset := by
  simp [matchedList, Filter.matching_types, List.mem_dedup, Finset.mem_inter,
    List.mem_toFinset, and_comm]

theorem extractName_ok_iff (t : TypeEntry) (n : String) :
    extractName t = Except.ok n ↔ t.type = some ⟨some n⟩ := by
  obtain ⟨tt⟩ := t
  cases tt with
  | none => simp [extractName]
  | some r =>
    obtain ⟨nm⟩ := r
    cases nm with
    | none => simp [extractName]
    | some m => simp [extractName]

theorem extractName_isOk_iff (t : TypeEntry) :
    (extractName t).isOk = true ↔ ∃ n, t.type = some ⟨some n⟩ := by
  obtain ⟨tt⟩ := t
  cases tt with
  | none => simp [extractName, Except.isOk, Except.toBool]
  | some r =>
    obtain ⟨nm⟩ := r
    cases nm with
    | none => simp [extractName, Except.isOk, Except.toBool]
    | some m => simp [extractName, Except.isOk, Except.toBool]

theorem extractNames_isOk_iff (l : List TypeEntry) :
    (extractNames l).isOk = true ↔ ∀ t ∈ l, (extractName t).isOk = true := by
  induction l with
  | nil => simp [extractNames, Except.isOk, Except.toBool]
  | cons t rest ih =>
    simp only [extractNames]
    cases ht : extractName t with
    | error e =>
      simp only [ht]
      constructor
      · intro h
        exact absurd h (by simp [Except.isOk, Except.toBool])
      · intro hall
        have h1 := hall t (List.mem_cons_self t rest)
        rw [ht] at h1
        exact absurd h1 (by simp [Except.isOk, Except.toBool])
    | ok n =>
      simp only [ht]
      cases hr : extractNames rest with
      | error e =>
        simp only [hr]
        constructor
        · intro h
          exact absurd h (by simp [Except.isOk, Except.toBool])
        · intro hall
          have h1 : ∀ u ∈ rest, (extractName u).isOk = true :=
            fun u hu => hall u (List.mem_cons_of_mem t hu)
          have h2 := ih.mpr h1
          rw [hr] at h2
          exact absurd h2 (by simp [Except.isOk, Except.toBool])
      | ok ms =>
        simp only [hr]
        constructor
        · intro _ u hu
          rcases List.mem_cons.mp hu with rfl | hu
          · rw [ht]
            simp [Except.isOk, Except.toBool]
          · refine (ih.mp ?_) u hu
            rw [hr]
            simp [Except.isOk, Except.toBool]
        · intro _
          simp [Except.isOk, Except.toBool]

theorem extractNames_mem (l : List TypeEntry) : ∀ (ns : List String),
    extractNames l = Except.ok ns → ∀ (s : String),
    (s ∈ ns ↔ ∃ t ∈ l, extractName t = Except.ok s) := by
  induction l with
  | nil =>
    intro ns h s
    simp only [extractNames] at h
    injection h with h
    subst h
    simp
  | cons t rest ih =>
    intro ns h s
    simp only [extractNames] at h
    cases ht : extractName t with
    | error e => simp [ht] at h
    | ok n =>
      rw [ht] at h
      cases hr : extractNames rest with
      | error e => simp [hr] at h
      | ok ms =>
        rw [hr] at h
        injection h with h
        subst h
        have hrec := ih ms hr s
        constructor
        · intro hs
          rcases List.mem_cons.mp hs with rfl | hs
          · exact ⟨t, List.mem_cons_self t rest, ht⟩
          · obtain ⟨u, hu, hus⟩ := hrec.mp hs
            exact ⟨u, List.mem_cons_of_mem t hu, hus⟩
        · rintro ⟨u, hu, hus⟩
          rcases List.mem_cons.mp hu with rfl | hu
          · rw [ht] at hus
            injection hus with hus
            subst hus
            exact List.mem_cons_self _ _
          · exact List.mem_cons_of_mem _ (hrec.mpr ⟨u, hu, hus⟩)

theorem get_types_isOk_iff_extractNames (p : PokeDetail) :
    (get_types p).isOk = true ↔ (extractNames p.types).isOk = true := by
  unfold get_types
  cases h : extractNames p.types <;> simp [Except.isOk, Except.toBool]

theorem passesE_eq_ok (f : Filter) (p : PokeDetail)
    (h : (get_types p).isOk = true) :
    passesE f p = Except.ok (passes f p) := by
  unfold passesE passes
  cases hxp : f.xp_in_range p.base_experience
  · simp [hxp]
  · cases hh : f.height_in_range p.height
    · simp [hxp, hh]
    · cases hty : get_types p with
      | error e =>
        rw [hty] at h
        simp [Except.isOk, Except.toBool] at h
      | ok tys => simp [hxp, hh, hty, typesOf]

theorem collectPassingAux_ok (f : Filter) :
    ∀ (ds : List PokeDetail), (∀ p ∈ ds, (get_types p).isOk = true) →
    ∀ (acc : List PokeDetail),
      collectPassingAux f acc ds = Except.ok (acc ++ ds.filter (passes f)) := by
  intro ds
  induction ds with
  | nil =>
    intro _ acc
    simp [collectPassingAux]
  | cons d rest ih =>
    intro h acc
    simp only [collectPassingAux]
    rw [passesE_eq_ok f d (h d (List.mem_cons_self d rest))]
    have hrest : ∀ p ∈ rest, (get_types p).isOk = true :=
      fun p hp => h p (List.mem_cons_of_mem d hp)
    cases hp : passes f d
    · simpa [hp, List.filter_cons] using ih hrest acc
    · simpa [hp, List.filter_cons, List.append_assoc] using ih hrest (acc ++ [d])

theorem collectPassingAux_error (f : Filter) :
    ∀ (pre : List PokeDetail) (d : PokeDetail) (post : List PokeDetail)
      (e : String), (∀ p ∈ pre, (passesE f p).isOk = true) →
      passesE f d = Except.error e → ∀ (acc : List PokeDetail),
      collectPassingAux f acc (pre ++ d :: post) = Except.error e := by
  intro pre
  induction pre with
  | nil =>
    intro d post e _ hd acc
    simp [collectPassingAux, hd]
  | cons p pre ih =>
    intro d post e hpre hd acc
    simp only [List.cons_append, collectPassingAux]
    cases hp : passesE f p with
    | error e2 =>
      have h1 := hpre p (List.mem_cons_self p pre)
      rw [hp] at h1
      exact absurd h1 (by simp [Except.isOk, Except.toBool])
    | ok b =>
      exact ih d post e (fun q hq => hpre q (List.mem_cons_of_mem p hq)) hd _

theorem height_in_range_false_of_inverted (f : Filter)
    (hlt : f.height_range.2 < f.height_range.1) (h : Option Int) :
    f.height_in_range h = false := by
  cases h with
  | none => rfl
  | some v =>
    have hn : ¬ (f.height_range.1 ≤ v ∧ v ≤ f.height_range.2) := by
      rintro ⟨h1, h2⟩
      exact absurd (h1.trans h2) (not_le.mpr hlt)
    rcases not_and_or.mp hn with h1 | h2
    · simp [Filter.height_in_range, h1]
    · simp [Filter.height_in_range, h2]

theorem xp_in_range_false_of_inverted (f : Filter)
    (hlt : f.xp_range.2 < f.xp_range.1) (x : Option Int) :
    f.xp_in_range x = false := by
  cases x with
  | none => rfl
  | some v =>
    have hn : ¬ (f.xp_range.1 ≤ v ∧ v ≤ f.xp_range.2) := by
      rintro ⟨h1, h2⟩
      exact absurd (h1.trans h2) (not_le.mpr hlt)
    rcases not_and_or.mp hn with h1 | h2
    · simp [Filter.xp_in_range, h1]
    · simp [Filter.xp_in_range, h2]

theorem passesE_false_of_inverted_height (f : Filter)
    (hlt : f.height_range.2 < f.height_range.1) (p : PokeDetail) :
    passesE f p = Except.ok false := by
  unfold passesE
  rw [height_in_range_false_of_inverted f hlt p.height]
  cases hxp : f.xp_in_range p.base_experience <;> simp [hxp]

theorem collectPassingAux_const_false (f : Filter)
    (hfalse : ∀ p, passesE f p = Except.ok false) :
    ∀ (ds : List PokeDetail) (acc : List PokeDetail),
      collectPassingAux f acc ds = Except.ok acc := by
  intro ds
  induction ds with
  | nil => intro acc; rfl
  | cons d rest ih =>
    intro acc
    simp only [collectPassingAux, hfalse d]
    exact ih acc

/-- C1: the claim says construction fails whenever categories contains a
non-string element or a range bound is not an integer.  The code does not:
the element-type asserts of Filter.\_\_init\_\_ are asserts on generator
expressions, which are always truthy, so construction succeeds on a
non-integer range bound (first conjunct, the input of the repository test
expecting "Failed to detect non-string height") and on a non-string category
element (second conjunct, the input of the test expecting "Failed to detect
non-string type").  This theorem evaluates the embedded constructor checks at
those two failing inputs, witnessing the divergence between the code and both
the claim and the intent recorded in the repository tests. -/
theorem initAsserts_accepts_malformed_elements :
    initAsserts [PyVal.str "type"] [PyVal.str "a", PyVal.int 3]
      [PyVal.int 1, PyVal.int 3] = true ∧
    initAsserts [PyVal.int 1] [PyVal.int 1, PyVal.int 2]
      [PyVal.int 3, PyVal.int 4] = true := by
  exact ⟨rfl, rfl⟩

/-- C2: the claim says the pipeline run returns the completed aggregation map.
The code builds exactly that map (first conjunct: the results value at the
pprint call is the completed aggregation for a one-item listing), but the
function body ends without a return statement, so get_pokemon returns None
(second conjunct), not the map: the claim fails on the code.  The declared
return annotation dict and the docstring of get_pokemon show the claim is the
intent and the missing return a slip. -/
theorem get_pokemon_builds_map_but_returns_none :
    get_pokemon_results fEx [stubEx] fetchEx =
      Except.ok [("grass", ["bulbasaur"]), ("poison", ["bulbasaur"])] ∧
    get_pokemon fEx [stubEx] fetchEx = Except.ok none := by
  exact ⟨rfl, rfl⟩

/-- C3: for every filter and listing of detail records whose classification
succeeds, the passing loop returns exactly the records satisfying the
conjunction of the three predicates (xp in range, height in range, type
match), in listing order; and the aggregation stage of get_pokemon receives
exactly that filtered list. -/
theorem passing_loop_is_threefold_conjunction_in_order (f : Filter)
    (ds : List PokeDetail) (h : ∀ p ∈ ds, (get_types p).isOk = true) :
    collectPassing f ds = Except.ok (ds.filter (passes f)) ∧
    (∀ (stubs : List Stub) (fetchOne : String → PokeDetail),
      stubs.map (fun s => fetchOne s.url) = ds →
      get_pokemon_results f stubs fetchOne =
        aggregateAux f [] (ds.filter (passes f))) := by
  have h1 : collectPassing f ds = Except.ok (ds.filter (passes f)) := by
    simpa [collectPassing] using collectPassingAux_ok f ds h []
  refine ⟨h1, ?_⟩
  intro stubs fetchOne hmap
  unfold get_pokemon_results
  rw [hmap, h1]

/-- Witness for C3 at a concrete input: a two-item listing where the first
item passes all three predicates and the second fails the type match yields
exactly the first item, in order. -/
theorem passing_loop_is_threefold_conjunction_in_order_witness :
    collectPassing fEx [dEx, dNo] = Except.ok [dEx] := by
  have h :=
    (passing_loop_is_threefold_conjunction_in_order fEx [dEx, dNo] (by decide)).1
  rw [h]
  rfl

/-- C4: for every filter, height_in_range is false on a null height and
otherwise true exactly on the inclusive interval between the two bounds of
height_range; xp_in_range obeys the same law against xp_range. -/
theorem range_checks_null_and_inclusive (f : Filter) :
    f.height_in_range none = false ∧
    f.xp_in_range none = false ∧
    (∀ h : Int, f.height_in_range (some h) = true ↔
      f.height_range.1 ≤ h ∧ h ≤ f.height_range.2) ∧
    (∀ x : Int, f.xp_in_range (some x) = true ↔
      f.xp_range.1 ≤ x ∧ x ≤ f.xp_range.2) := by
  refine ⟨rfl, rfl, ?_, ?_⟩ <;> intro v <;>
    simp [Filter.height_in_range, Filter.xp_in_range]

/-- C5: for every filter and set of type strings, type_matches is true exactly
when the intersection of the given types with the filter categories is
non-empty, and matching_types returns exactly that intersection. -/
theorem type_queries_compute_intersection (f : Filter) (types : Finset String) :
    (f.type_matches types = true ↔ (types ∩ f.types).Nonempty) ∧
    f.matching_types types = types ∩ f.types := by
  constructor
  · simp [Filter.type_matches, Finset.Nonempty, Finset.mem_inter]
  · exact Finset.inter_comm f.types types

/-- C6: processing one passing item appends its name to the sequence of every
category in matching_types of its extracted categories, exactly once per
category, creating the sequence on first use (an absent key reads as the empty
sequence) and leaving every other sequence unchanged. -/
theorem aggregation_appends_once_per_matched_category (f : Filter)
    (r : AggMap) (p : PokeDetail) (ns : List String)
    (h : extractNames p.types = Except.ok ns) (t : String) :
    Except.map (fun r2 => lookupList r2 t) (processOne f r p) =
      Except.ok (lookupList r t ++
        (if t ∈ f.matching_types ns.toFinset then [p.name] else [])) := by
  unfold processOne
  rw [h]
  simp only [Except.map]
  rw [lookupList_foldl_dictAppend p.name t (matchedList f ns)
    (matchedList_nodup f ns) r]
  simp only [mem_matchedList]

/-- Witness for C6 at a concrete input: an item with types grass and poison,
aggregated into a map that already holds a grass entry, appends its name once
under grass (and, by a second application, once under poison, a key created on
first use). -/
theorem aggregation_appends_once_per_matched_category_witness :
    Except.map (fun r2 => lookupList r2 "grass")
        (processOne fEx [("grass", ["oddish"])] dEx) =
      Except.ok ["oddish", "bulbasaur"] ∧
    Except.map (fun r2 => lookupList r2 "poison")
        (processOne fEx [("grass", ["oddish"])] dEx) =
      Except.ok ["bulbasaur"] := by
  constructor
  · rw [aggregation_appends_once_per_matched_category fEx [("grass", ["oddish"])]
      dEx ["grass", "poison"] rfl "grass"]
    rfl
  · rw [aggregation_appends_once_per_matched_category fEx [("grass", ["oddish"])]
      dEx ["grass", "poison"] rfl "poison"]
    rfl

/-- C7: get_types succeeds exactly on blobs whose every types entry carries
the nested type.name structure; on success it returns exactly the set of those
nested names (duplicates collapsed); a classification error raised while
testing an item aborts the passing loop with that error, whatever items
follow; and an aborted loop makes the whole run error out, so no item is
silently skipped and no partial result is produced. -/
theorem get_types_exact_and_failures_abort :
    (∀ p : PokeDetail, (get_types p).isOk = true ↔
      ∀ t ∈ p.types, ∃ n, t.type = some ⟨some n⟩) ∧
    (∀ (p : PokeDetail) (S : Finset String), get_types p = Except.ok S →
      ∀ s : String, s ∈ S ↔ ∃ t ∈ p.types, t.type = some ⟨some s⟩) ∧
    (∀ (f : Filter) (pre : List PokeDetail) (d : PokeDetail)
      (post : List PokeDetail) (e : String),
      (∀ p ∈ pre, (passesE f p).isOk = true) →
      passesE f d = Except.error e →
      collectPassing f (pre ++ d :: post) = Except.error e) ∧
    (∀ (f : Filter) (stubs : List Stub) (fetchOne : String → PokeDetail)
      (e : String),
      collectPassing f (stubs.map (fun s => fetchOne s.url)) = Except.error e →
      get_pokemon_results f stubs fetchOne = Except.error e ∧
      get_pokemon f stubs fetchOne = Except.error e) := by
  refine ⟨?_, ?_, ?_, ?_⟩
  · intro p
    rw [get_types_isOk_iff_extractNames, extractNames_isOk_iff]
    constructor
    · intro h t ht
      exact (extractName_isOk_iff t).mp (h t ht)
    · intro h t ht
      exact (extractName_isOk_iff t).mpr (h t ht)
  · intro p S hS s
    unfold get_types at hS
    cases hn : extractNames p.types with
    | error e =>
      rw [hn] at hS
      cases hS
    | ok ns =>
      rw [hn] at hS
      injection hS with hS
      subst hS
      rw [List.mem_toFinset, extractNames_mem p.types ns hn s]
      constructor
      · rintro ⟨t, ht, hok⟩
        exact ⟨t, ht, (extractName_ok_iff t s).mp hok⟩
      · rintro ⟨t, ht, hok⟩
        exact ⟨t, ht, (extractName_ok_iff t s).mpr hok⟩
  · intro f pre d post e hpre hd
    exact collectPassingAux_error f pre d post e hpre hd []
  · intro f stubs fetchOne e h
    have h1 : get_pokemon_results f stubs fetchOne = Except.error e := by
      unfold get_pokemon_results
      rw [h]
    refine ⟨h1, ?_⟩
    unfold get_pokemon
    rw [h1]

/-- Witness for C7 at a concrete input: one listed item whose blob passes both
range checks but lacks the nested type key makes the whole run abort with the
KeyError, rather than returning any aggregation. -/
theorem get_types_exact_and_failures_abort_witness :
    get_pokemon fEx [stubEx] (fun _ => dBad) = Except.error "KeyError: type" := by
  have h3 := get_types_exact_and_failures_abort.2.2.1 fEx [] dBad []
    "KeyError: type" (by simp) rfl
  exact (get_types_exact_and_failures_abort.2.2.2 fEx [stubEx] (fun _ => dBad)
    "KeyError: type" (by simpa using h3)).2

/-- C8: for every filter and fetch function, running the pipeline on an empty
listing builds the empty aggregation map and raises no error. -/
theorem empty_listing_yields_empty_map (f : Filter)
    (fetchOne : String → PokeDetail) :
    get_pokemon_results f [] fetchOne = Except.ok [] := rfl

/-- C9: for every filter and set of type strings, the short-circuiting
membership loop type_matches returns true exactly when the full intersection
matching_types is non-empty. -/
theorem type_matches_iff_matching_types_nonempty (f : Filter)
    (types : Finset String) :
    f.type_matches types = true ↔ (f.matching_types types).Nonempty := by
  simp [Filter.type_matches, Filter.matching_types, Finset.Nonempty,
    Finset.mem_inter, and_comm]

/-- C10: construction never compares the two bounds of a range, so a filter
with an inverted range (low above high) is accepted (first conjunct, on the
embedded constructor checks); for such a filter the corresponding range
predicate rejects every input, null or not (second and third conjuncts), and
with an inverted height range the passing loop keeps no item at all (fourth
conjunct). -/
theorem inverted_ranges_accepted_and_reject_everything :
    initAsserts [PyVal.str "grass"] [PyVal.int 5, PyVal.int 2]
      [PyVal.int 9, PyVal.int 4] = true ∧
    (∀ (f : Filter) (h : Option Int), f.height_range.2 < f.height_range.1 →
      f.height_in_range h = false) ∧
    (∀ (f : Filter) (x : Option Int), f.xp_range.2 < f.xp_range.1 →
      f.xp_in_range x = false) ∧
    (∀ (f : Filter) (ds : List PokeDetail), f.height_range.2 < f.height_range.1 →
      collectPassing f ds = Except.ok []) := by
  refine ⟨rfl, ?_, ?_, ?_⟩
  · intro f h hlt
    exact height_in_range_false_of_inverted f hlt h
  · intro f x hlt
    exact xp_in_range_false_of_inverted f hlt x
  · intro f ds hlt
    exact collectPassingAux_const_false f (passesE_false_of_inverted_height f hlt) ds []

/-- Witness for C10 at a concrete input: the filter with ranges (5, 2) and
(9, 4) rejects in-range-looking heights and xp values, and its passing loop
keeps nothing, not even raising on a malformed blob, because the failing
height check short-circuits the classification. -/
theorem inverted_ranges_accepted_and_reject_everything_witness :
    fInv.height_in_range (some 3) = false ∧
    fInv.xp_in_range (some 6) = false ∧
    collectPassing fInv [dBad] = Except.ok [] := by
  refine ⟨?_, ?_, ?_⟩
  · exact inverted_ranges_accepted_and_reject_everything.2.1 fInv (some 3)
      (by decide)
  · exact inverted_ranges_accepted_and_reject_everything.2.2.1 fInv (some 6)
      (by decide)
  · exact inverted_ranges_accepted_and_reject_everything.2.2.2 fInv [dBad]
      (by decide)

end Pokefilter
